import Mathlib

/-!
Verification of a 32-bit RISC-V integer core simulator consisting of a
register file with a hard-wired zero register, RV32I instruction semantics
(ALU, shift, upper-immediate, jump and branch instructions), and a sparse
slab-backed byte-addressable memory.

Machine integers are embedded as `Nat` (for `u32`, `u16`, `u8`) and `Int`
(for `i32`/`i64`), reduced modulo `2^32` wherever the source wraps.  The
source's explicitly wrapping operations (`overflowing_add`,
`overflowing_sub`, `wrapping_add`, `wrapping_sub`) are embedded as total
modular operations; the source's plain `+` on `u32` and its shifts by a
non-constant amount are checked operations that fault when the sum
overflows the 32-bit range or the shift amount reaches the bit width, and
are embedded as `Option`-valued operations returning `none` on such a
fault.  A shift by an in-range amount silently discards the bits shifted
past the top, hence the modular reduction after `<<<`.

Register indices are embedded as `Fin 33`: the register index space 0–32
is fixed and validated by the external decoder, so the embedding enforces
it structurally, exactly as the register file's fixed-size array does.
-/

/-- `2^32`, the modulus of all `u32` arithmetic. -/
def U32MOD : Nat := 4294967296

/-- `u32::wrapping_add`. -/
def wrapping_add (a b : Nat) : Nat := (a + b) % U32MOD

/-- `u32::wrapping_sub` (for `a`, `b` below `2^32`). -/
def wrapping_sub (a b : Nat) : Nat := (a + (U32MOD - b % U32MOD)) % U32MOD

/-- Plain `+` on `u32`: faults (panics under overflow checks) when the
mathematical sum does not fit in 32 bits. -/
def checked_add_u32 (a b : Nat) : Option Nat :=
  if a + b < U32MOD then some (a + b) else none

/-- Reinterpret a `u32` bit pattern as an `i32` (`as i32`). -/
def toI32 (n : Nat) : Int :=
  if n < 2147483648 then (n : Int) else (n : Int) - 4294967296

/-- Truncate an integer to a `u32` bit pattern (`as u32`). -/
def toU32 (x : Int) : Nat := (x % 4294967296).toNat

/-- `i32::overflowing_add`'s value: wrap the mathematical sum back into
the `i32` range. -/
def wrapI32 (x : Int) : Int := (x + 2147483648) % 4294967296 - 2147483648

/-- Arithmetic right shift of an `i32`: floor division by a power of two,
the sign bit replicated into the vacated high bits. -/
def ashr (x : Int) (n : Nat) : Int := Int.fdiv x (2 ^ n)

/-! ## Memory: a sparse slab-backed byte-addressable store -/

/-- The fixed slab size: 1 KiB. -/
def slabsize : Nat := 1024

/-- The sparse memory: a map from slab key ranges `(lower, upper)` to
1024-byte buffers.  `none` means the slab has never been allocated. -/
structure Memory where
  slabs : Nat × Nat → Option (Fin slabsize → Nat)

/-- `Memory::new()`: no slab allocated. -/
def Memory.new : Memory := ⟨fun _ => none⟩

/-- The all-zero buffer a slab is initialized with on first touch. -/
def zero_slab : Fin slabsize → Nat := fun _ => 0

/-- `range_for(index)`: the key range of the slab owning `index` together
with the offset of `index` inside it.  The upper bound is computed with a
plain `u32` addition, which overflows for the highest slab. -/
def range_for (index : Nat) : Option ((Nat × Nat) × Nat) :=
  let diff := index % slabsize
  let lower_bound := index - diff
  match checked_add_u32 lower_bound slabsize with
  | none => none
  | some upper_bound => some ((lower_bound, upper_bound), diff)

/-- `Memory::get_byte`.  The outer `Option` is a fault (overflow computing
the slab range, or an out-of-range buffer index); the inner `Option` is
the source's return value, `none` being the slab-miss representation. -/
def Memory.get_byte (m : Memory) (index : Nat) : Option (Option Nat) :=
  match range_for index with
  | none => none
  | some (range, diff) =>
      if h : diff < slabsize then
        some ((m.slabs range).map fun vec => vec ⟨diff, h⟩)
      else none

/-- `Memory::set_byte`: allocate (zero-fill) the owning slab on first
touch, then write the byte.  `none` is a fault. -/
def Memory.set_byte (m : Memory) (index value : Nat) : Option Memory :=
  match range_for index with
  | none => none
  | some (range, diff) =>
      let vec := (m.slabs range).getD zero_slab
      if h : diff < slabsize then
        some ⟨Function.update m.slabs range (some (Function.update vec ⟨diff, h⟩ value))⟩
      else none

/-- `Memory::get_half`: the source's loop `for i in 0..2` unrolled.  Each
iteration reads the byte at `index + i` (a checked addition) and then
overwrites `val` with `(x as u16) << i`.  `some none` is the source
returning `None` on a slab miss; the outer `none` is a fault. -/
def Memory.get_half (m : Memory) (index : Nat) : Option (Option Nat) :=
  match checked_add_u32 index 0 with
  | none => none
  | some a0 =>
    match m.get_byte a0 with
    | none => none
    | some none => some none
    | some (some x0) =>
      let val := (x0 <<< 0) % 65536
      match checked_add_u32 index 1 with
      | none => none
      | some a1 =>
        match m.get_byte a1 with
        | none => none
        | some none => some none
        | some (some x1) =>
          let val := (x1 <<< 1) % 65536
          some (some val)

/-- `Memory::get_word`: the source's loop `for i in 0..4` unrolled.  Each
iteration overwrites `val` with `(x as u32) << i`, so only the last byte
survives, shifted by 3 bits. -/
def Memory.get_word (m : Memory) (index : Nat) : Option (Option Nat) :=
  match checked_add_u32 index 0 with
  | none => none
  | some a0 =>
    match m.get_byte a0 with
    | none => none
    | some none => some none
    | some (some x0) =>
      let val := (x0 <<< 0) % U32MOD
      match checked_add_u32 index 1 with
      | none => none
      | some a1 =>
        match m.get_byte a1 with
        | none => none
        | some none => some none
        | some (some x1) =>
          let val := (x1 <<< 1) % U32MOD
          match checked_add_u32 index 2 with
          | none => none
          | some a2 =>
            match m.get_byte a2 with
            | none => none
            | some none => some none
            | some (some x2) =>
              let val := (x2 <<< 2) % U32MOD
              match checked_add_u32 index 3 with
              | none => none
              | some a3 =>
                match m.get_byte a3 with
                | none => none
                | some none => some none
                | some (some x3) =>
                  let val := (x3 <<< 3) % U32MOD
                  some (some val)

/-- `Memory::set_half`: the source's loop unrolled; iteration `i` stores
`(value >> i) as u8` at `index + i` (a checked addition). -/
def Memory.set_half (m : Memory) (index value : Nat) : Option Memory :=
  match checked_add_u32 index 0 with
  | none => none
  | some a0 =>
    match m.set_byte a0 ((value >>> 0) % 256) with
    | none => none
    | some m0 =>
      match checked_add_u32 index 1 with
      | none => none
      | some a1 => m0.set_byte a1 ((value >>> 1) % 256)

/-- `Memory::set_word`: the source's loop unrolled; iteration `i` stores
`(value >> i) as u8` at `index + i` (a checked addition). -/
def Memory.set_word (m : Memory) (index value : Nat) : Option Memory :=
  match checked_add_u32 index 0 with
  | none => none
  | some a0 =>
    match m.set_byte a0 ((value >>> 0) % 256) with
    | none => none
    | some m0 =>
      match checked_add_u32 index 1 with
      | none => none
      | some a1 =>
        match m0.set_byte a1 ((value >>> 1) % 256) with
        | none => none
        | some m1 =>
          match checked_add_u32 index 2 with
          | none => none
          | some a2 =>
            match m1.set_byte a2 ((value >>> 2) % 256) with
            | none => none
            | some m2 =>
              match checked_add_u32 index 3 with
              | none => none
              | some a3 => m2.set_byte a3 ((value >>> 3) % 256)

/-! ## Processor: register file, program counter, instruction semantics -/

/-- A register index.  Indices 0–31 are the general registers; index 32
holds the program counter. -/
abbrev Register := Fin 33

/-- The reserved register slot holding the program counter. -/
def pc : Register := 32

/-- The processor state: 33 register slots of `u32` values.  Slot 0 is
unused and hard-wired to 0. -/
structure Processor where
  registers : Fin 33 → Nat

/-- `Processor::new()`: all registers zero. -/
def Processor.new : Processor := ⟨fun _ => 0⟩

/-- `Processor::get`: reading register 0 always yields 0. -/
def Processor.get (p : Processor) (reg : Register) : Nat :=
  if reg = 0 then 0 else p.registers reg

/-- `Processor::set`: writing register 0 is a no-op. -/
def Processor.set (p : Processor) (reg : Register) (val : Nat) : Processor :=
  if reg = 0 then p else ⟨Function.update p.registers reg val⟩

/-- ADDI: add the sign-extended immediate to `rs1`, `i32` overflow
wrapping, result reinterpreted as `u32`. -/
def Processor.addi (p : Processor) (rd rs1 : Register) (imm : Nat) : Processor :=
  let signed_imm := toI32 imm
  let rs1_val := toI32 (p.get rs1)
  let result := wrapI32 (rs1_val + signed_imm)
  p.set rd (toU32 result)

/-- SLTI: signed compare of `rs1` against the immediate. -/
def Processor.slti (p : Processor) (rd rs1 : Register) (imm : Nat) : Processor :=
  p.set rd (if toI32 (p.get rs1) < toI32 imm then 1 else 0)

/-- SLTIU: unsigned compare of `rs1` against the immediate, with the
source's special branch for `imm == 1` (the SEQZ pseudo-op). -/
def Processor.sltiu (p : Processor) (rd rs1 : Register) (imm : Nat) : Processor :=
  let rs1_val := p.get rs1
  if imm = 1 then
    p.set rd (if rs1_val = 0 then 1 else 0)
  else
    p.set rd (if rs1_val < imm then 1 else 0)

/-- ANDI. -/
def Processor.andi (p : Processor) (rd rs1 : Register) (imm : Nat) : Processor :=
  p.set rd (p.get rs1 &&& imm)

/-- ORI. -/
def Processor.ori (p : Processor) (rd rs1 : Register) (imm : Nat) : Processor :=
  p.set rd (p.get rs1 ||| imm)

/-- XORI. -/
def Processor.xori (p : Processor) (rd rs1 : Register) (imm : Nat) : Processor :=
  p.set rd (p.get rs1 ^^^ imm)

/-- SLLI: `rs1 << imm` with no masking of the shift amount; the shift
faults when `imm` reaches the 32-bit width. -/
def Processor.slli (p : Processor) (rd rs1 : Register) (imm : Nat) : Option Processor :=
  if imm < 32 then some (p.set rd ((p.get rs1 <<< imm) % U32MOD)) else none

/-- SRLI: logical right shift with no masking of the shift amount. -/
def Processor.srli (p : Processor) (rd rs1 : Register) (imm : Nat) : Option Processor :=
  if imm < 32 then some (p.set rd (p.get rs1 >>> imm)) else none

/-- SRAI: arithmetic right shift with no masking of the shift amount. -/
def Processor.srai (p : Processor) (rd rs1 : Register) (imm : Nat) : Option Processor :=
  if imm < 32 then some (p.set rd (toU32 (ashr (toI32 (p.get rs1)) imm))) else none

/-- LUI: load the immediate shifted left 12 bits. -/
def Processor.lui (p : Processor) (rd : Register) (imm : Nat) : Processor :=
  p.set rd ((imm <<< 12) % U32MOD)

/-- AUIPC: the LUI value plus the program counter, overflow wrapping. -/
def Processor.auipc (p : Processor) (rd : Register) (imm : Nat) : Processor :=
  p.set rd (wrapping_add ((imm <<< 12) % U32MOD) (p.get pc))

/-- ADD, overflow wrapping. -/
def Processor.add (p : Processor) (rd rs1 rs2 : Register) : Processor :=
  p.set rd (wrapping_add (p.get rs1) (p.get rs2))

/-- SUB, overflow wrapping. -/
def Processor.sub (p : Processor) (rd rs1 rs2 : Register) : Processor :=
  p.set rd (wrapping_sub (p.get rs1) (p.get rs2))

/-- SLT: signed register compare. -/
def Processor.slt (p : Processor) (rd rs1 rs2 : Register) : Processor :=
  p.set rd (if toI32 (p.get rs1) < toI32 (p.get rs2) then 1 else 0)

/-- SLTU: unsigned register compare. -/
def Processor.sltu (p : Processor) (rd rs1 rs2 : Register) : Processor :=
  p.set rd (if p.get rs1 < p.get rs2 then 1 else 0)

/-- AND. -/
def Processor.and (p : Processor) (rd rs1 rs2 : Register) : Processor :=
  p.set rd (p.get rs1 &&& p.get rs2)

/-- OR. -/
def Processor.or (p : Processor) (rd rs1 rs2 : Register) : Processor :=
  p.set rd (p.get rs1 ||| p.get rs2)

/-- XOR. -/
def Processor.xor (p : Processor) (rd rs1 rs2 : Register) : Processor :=
  p.set rd (p.get rs1 ^^^ p.get rs2)

/-- SLL: shift left by the low 5 bits of `rs2` (`rs2 & 0b11111`). -/
def Processor.sll (p : Processor) (rd rs1 rs2 : Register) : Processor :=
  p.set rd ((p.get rs1 <<< (p.get rs2 &&& 31)) % U32MOD)

/-- SRL: logical shift right by the low 5 bits of `rs2`. -/
def Processor.srl (p : Processor) (rd rs1 rs2 : Register) : Processor :=
  p.set rd (p.get rs1 >>> (p.get rs2 &&& 31))

/-- SRA: arithmetic shift right by the low 5 bits of `rs2`. -/
def Processor.sra (p : Processor) (rd rs1 rs2 : Register) : Processor :=
  p.set rd (toU32 (ashr (toI32 (p.get rs1)) (p.get rs2 &&& 31)))

/-- The mixed-sign addition rule: add a signed 32-bit offset to an
unsigned 32-bit base with wraparound, subtracting the magnitude (promoted
to 64 bits before negation) when the offset is negative. -/
def unsigned_signed_add (left : Nat) (right : Int) : Nat :=
  if right < 0 then
    wrapping_sub left (toU32 (-right))
  else
    wrapping_add left (toU32 right)

/-- JAL: store `PC + 4` (a plain, checked `u32` addition) in `rd` and jump
to the signed offset from the current PC. -/
def Processor.jal (p : Processor) (rd : Register) (imm : Nat) : Option Processor :=
  let current_pc := p.get pc
  match checked_add_u32 current_pc 4 with
  | none => none
  | some following_jump =>
    some ((p.set rd following_jump).set pc (unsigned_signed_add current_pc (toI32 imm)))

/-- JALR: store `PC + 4` (a plain, checked `u32` addition) in `rd` and
jump to the signed offset from `rs1`. -/
def Processor.jalr (p : Processor) (rd rs1 : Register) (imm : Nat) : Option Processor :=
  match checked_add_u32 (p.get pc) 4 with
  | none => none
  | some following_jump =>
    some ((p.set rd following_jump).set pc (unsigned_signed_add (p.get rs1) (toI32 imm)))

/-- BEQ: jump to the signed offset from PC if the registers are equal. -/
def Processor.beq (p : Processor) (rs1 rs2 : Register) (imm : Nat) : Processor :=
  if p.get rs1 = p.get rs2 then
    p.set pc (unsigned_signed_add (p.get pc) (toI32 imm))
  else p

/-- BNE: jump if the registers are not equal. -/
def Processor.bne (p : Processor) (rs1 rs2 : Register) (imm : Nat) : Processor :=
  if p.get rs1 ≠ p.get rs2 then
    p.set pc (unsigned_signed_add (p.get pc) (toI32 imm))
  else p

/-- BLT: jump if `rs1 < rs2` as signed values. -/
def Processor.blt (p : Processor) (rs1 rs2 : Register) (imm : Nat) : Processor :=
  if toI32 (p.get rs1) < toI32 (p.get rs2) then
    p.set pc (unsigned_signed_add (p.get pc) (toI32 imm))
  else p

/-- BLTU: jump if `rs1 < rs2` as unsigned values. -/
def Processor.bltu (p : Processor) (rs1 rs2 : Register) (imm : Nat) : Processor :=
  if p.get rs1 < p.get rs2 then
    p.set pc (unsigned_signed_add (p.get pc) (toI32 imm))
  else p

/-- BGE: jump if `rs1 ≥ rs2` as signed values. -/
def Processor.bge (p : Processor) (rs1 rs2 : Register) (imm : Nat) : Processor :=
  if toI32 (p.get rs2) ≤ toI32 (p.get rs1) then
    p.set pc (unsigned_signed_add (p.get pc) (toI32 imm))
  else p

/-- BGEU: jump if `rs1 ≥ rs2` as unsigned values. -/
def Processor.bgeu (p : Processor) (rs1 rs2 : Register) (imm : Nat) : Processor :=
  if p.get rs2 ≤ p.get rs1 then
    p.set pc (unsigned_signed_add (p.get pc) (toI32 imm))
  else p

/-! ## Helper lemmas on register access -/

theorem pc_ne_zero : pc ≠ (0 : Register) := by decide

theorem Processor.get_zero (p : Processor) : p.get 0 = 0 := rfl

theorem Processor.set_zero (p : Processor) (v : Nat) : p.set 0 v = p := rfl

theorem Processor.get_set_self (p : Processor) (reg : Register) (v : Nat) (h : reg ≠ 0) :
    (p.set reg v).get reg = v := by
  simp [Processor.set, Processor.get, h]

theorem Processor.get_set_other (p : Processor) (reg r : Register) (v : Nat) (h : r ≠ reg) :
    (p.set reg v).get r = p.get r := by
  by_cases h0 : reg = 0
  · simp [Processor.set, h0]
  · by_cases hr : r = 0
    · simp [Processor.get, hr]
    · simp [Processor.set, Processor.get, h0, hr, Function.update_noteq h]

/-! ## C1: the zero-register invariant -/

/-- C1: for every Processor operation (get, set, and every instruction
from `addi` through `bgeu`) and all operand values, slot 0 of the register
file reads 0 after an operation with `rd = 0` (the write is a no-op), and
since every operand is read through `get`, a source register named 0
contributes the value 0 to the computation regardless of any prior
`set 0 v` call. -/
theorem C1_zero_register_invariant :
    (∀ p : Processor, p.get 0 = 0) ∧
    (∀ (p : Processor) (v : Nat), p.set 0 v = p) ∧
    (∀ (p : Processor) (rs1 : Register) (imm : Nat),
      (p.addi 0 rs1 imm).get 0 = 0 ∧ (p.slti 0 rs1 imm).get 0 = 0 ∧
      (p.sltiu 0 rs1 imm).get 0 = 0 ∧ (p.andi 0 rs1 imm).get 0 = 0 ∧
      (p.ori 0 rs1 imm).get 0 = 0 ∧ (p.xori 0 rs1 imm).get 0 = 0 ∧
      (∀ p' ∈ p.slli 0 rs1 imm, p'.get 0 = 0) ∧
      (∀ p' ∈ p.srli 0 rs1 imm, p'.get 0 = 0) ∧
      (∀ p' ∈ p.srai 0 rs1 imm, p'.get 0 = 0) ∧
      (∀ p' ∈ p.jalr 0 rs1 imm, p'.get 0 = 0)) ∧
    (∀ (p : Processor) (imm : Nat),
      (p.lui 0 imm).get 0 = 0 ∧ (p.auipc 0 imm).get 0 = 0 ∧
      (∀ p' ∈ p.jal 0 imm, p'.get 0 = 0)) ∧
    (∀ (p : Processor) (rs1 rs2 : Register),
      (p.add 0 rs1 rs2).get 0 = 0 ∧ (p.sub 0 rs1 rs2).get 0 = 0 ∧
      (p.slt 0 rs1 rs2).get 0 = 0 ∧ (p.sltu 0 rs1 rs2).get 0 = 0 ∧
      (p.and 0 rs1 rs2).get 0 = 0 ∧ (p.or 0 rs1 rs2).get 0 = 0 ∧
      (p.xor 0 rs1 rs2).get 0 = 0 ∧ (p.sll 0 rs1 rs2).get 0 = 0 ∧
      (p.srl 0 rs1 rs2).get 0 = 0 ∧ (p.sra 0 rs1 rs2).get 0 = 0) ∧
    (∀ (p : Processor) (rs1 rs2 : Register) (imm : Nat),
      (p.beq rs1 rs2 imm).get 0 = 0 ∧ (p.bne rs1 rs2 imm).get 0 = 0 ∧
      (p.blt rs1 rs2 imm).get 0 = 0 ∧ (p.bltu rs1 rs2 imm).get 0 = 0 ∧
      (p.bge rs1 rs2 imm).get 0 = 0 ∧ (p.bgeu rs1 rs2 imm).get 0 = 0) :=
  ⟨fun _ => rfl, fun _ _ => rfl,
   fun _ _ _ => ⟨rfl, rfl, rfl, rfl, rfl, rfl,
     fun _ _ => rfl, fun _ _ => rfl, fun _ _ => rfl, fun _ _ => rfl⟩,
   fun _ _ => ⟨rfl, rfl, fun _ _ => rfl⟩,
   fun _ _ _ => ⟨rfl, rfl, rfl, rfl, rfl, rfl, rfl, rfl, rfl, rfl⟩,
   fun _ _ _ _ => ⟨rfl, rfl, rfl, rfl, rfl, rfl⟩⟩

/-- Witness for C1 at concrete inputs: a write to register 0 is a no-op on
the fresh processor, `addi` with `rd = 0` leaves slot 0 reading 0, and the
state produced by `jal 0 8` from the fresh processor reads 0 at slot 0. -/
theorem C1_zero_register_invariant_witness :
    Processor.new.set 0 7 = Processor.new ∧
    (Processor.new.addi 0 3 5).get 0 = 0 ∧
    (Processor.new.set pc 8).get 0 = 0 :=
  ⟨C1_zero_register_invariant.2.1 Processor.new 7,
   (C1_zero_register_invariant.2.2.1 Processor.new 3 5).1,
   (C1_zero_register_invariant.2.2.2.1 Processor.new 8).2.2
     (Processor.new.set pc 8) rfl⟩

/-! ## C6: the SLTIU SEQZ special case agrees with the general rule -/

/-- C6: for every `rs1` register and every processor state,
`sltiu rd rs1 1` writes exactly the result of the general unsigned
comparison rule `(get rs1 < 1)` — the `imm == 1` special-case branch never
changes the outcome. -/
theorem C6_sltiu_seqz_equivalence (p : Processor) (rd rs1 : Register) :
    p.sltiu rd rs1 1 = p.set rd (if p.get rs1 < 1 then 1 else 0) := by
  unfold Processor.sltiu
  simp [Nat.lt_one_iff]

/-! ## C5: the mixed-sign addition rule -/

/-- C5: for every `u32` base and every `i32` offset (including the most
negative one), `unsigned_signed_add base offset` equals the base plus the
offset modulo `2^32`, and this same function computes the target of every
jump and taken branch (`jal`, `jalr`, `beq`, `bne`, `blt`, `bltu`, `bge`,
`bgeu`). -/
theorem C5_mixed_sign_addition (left : Nat) (right : Int)
    (hl : left < U32MOD) (h1 : -2147483648 ≤ right) (h2 : right < 2147483648) :
    unsigned_signed_add left right = toU32 ((left : Int) + right) ∧
    (∀ (p p' : Processor) (rd : Register) (imm : Nat), p.jal rd imm = some p' →
      p'.get pc = unsigned_signed_add (p.get pc) (toI32 imm)) ∧
    (∀ (p p' : Processor) (rd rs1 : Register) (imm : Nat), p.jalr rd rs1 imm = some p' →
      p'.get pc = unsigned_signed_add (p.get rs1) (toI32 imm)) ∧
    (∀ (p : Processor) (rs1 rs2 : Register) (imm : Nat),
      (p.get rs1 = p.get rs2 →
        (p.beq rs1 rs2 imm).get pc = unsigned_signed_add (p.get pc) (toI32 imm)) ∧
      (p.get rs1 ≠ p.get rs2 →
        (p.bne rs1 rs2 imm).get pc = unsigned_signed_add (p.get pc) (toI32 imm)) ∧
      (toI32 (p.get rs1) < toI32 (p.get rs2) →
        (p.blt rs1 rs2 imm).get pc = unsigned_signed_add (p.get pc) (toI32 imm)) ∧
      (p.get rs1 < p.get rs2 →
        (p.bltu rs1 rs2 imm).get pc = unsigned_signed_add (p.get pc) (toI32 imm)) ∧
      (toI32 (p.get rs2) ≤ toI32 (p.get rs1) →
        (p.bge rs1 rs2 imm).get pc = unsigned_signed_add (p.get pc) (toI32 imm)) ∧
      (p.get rs2 ≤ p.get rs1 →
        (p.bgeu rs1 rs2 imm).get pc = unsigned_signed_add (p.get pc) (toI32 imm))) := by
  refine ⟨?_, ?_, ?_, ?_⟩
  · unfold unsigned_signed_add wrapping_add wrapping_sub toU32 U32MOD
    split_ifs with hneg
    · omega
    · omega
  · intro p p' rd imm h
    unfold Processor.jal at h
    cases hc : checked_add_u32 (p.get pc) 4 with
    | none =>
      simp only [hc] at h
      exact Option.noConfusion h
    | some f =>
      simp only [hc, Option.some.injEq] at h
      subst h
      exact Processor.get_set_self _ pc _ pc_ne_zero
  · intro p p' rd rs1 imm h
    unfold Processor.jalr at h
    cases hc : checked_add_u32 (p.get pc) 4 with
    | none =>
      simp only [hc] at h
      exact Option.noConfusion h
    | some f =>
      simp only [hc, Option.some.injEq] at h
      subst h
      exact Processor.get_set_self _ pc _ pc_ne_zero
  · intro p rs1 rs2 imm
    refine ⟨fun hc => ?_, fun hc => ?_, fun hc => ?_, fun hc => ?_, fun hc => ?_, fun hc => ?_⟩
    · unfold Processor.beq
      rw [if_pos hc]
      exact Processor.get_set_self _ pc _ pc_ne_zero
    · unfold Processor.bne
      rw [if_pos hc]
      exact Processor.get_set_self _ pc _ pc_ne_zero
    · unfold Processor.blt
      rw [if_pos hc]
      exact Processor.get_set_self _ pc _ pc_ne_zero
    · unfold Processor.bltu
      rw [if_pos hc]
      exact Processor.get_set_self _ pc _ pc_ne_zero
    · unfold Processor.bge
      rw [if_pos hc]
      exact Processor.get_set_self _ pc _ pc_ne_zero
    · unfold Processor.bgeu
      rw [if_pos hc]
      exact Processor.get_set_self _ pc _ pc_ne_zero

/-- Witness for C5 at concrete inputs: base 5 with offset −3 wraps to the
modular sum, and a taken `beq` from the fresh processor lands on the
`unsigned_signed_add` target. -/
theorem C5_mixed_sign_addition_witness :
    unsigned_signed_add 5 (-3) = toU32 ((5 : Int) + (-3)) ∧
    (Processor.new.beq 1 2 12).get pc
      = unsigned_signed_add (Processor.new.get pc) (toI32 12) :=
  ⟨(C5_mixed_sign_addition 5 (-3) (by decide) (by decide) (by decide)).1,
   ((C5_mixed_sign_addition 5 (-3) (by decide) (by decide) (by decide)).2.2.2
     Processor.new 1 2 12).1 rfl⟩

/-! ## C7: branch frame conditions -/

/-- C7: for each of `beq`, `bne`, `blt`, `bltu`, `bge`, `bgeu`, if the
named condition over the source registers does not hold the entire
processor state (all 33 slots, PC included) is unchanged; if it holds the
state is exactly the old state with the PC replaced by
`unsigned_signed_add PC imm`, so the PC reads the target and every other
slot is unchanged. -/
theorem C7_branch_non_taken_frame (p : Processor) (rs1 rs2 : Register) (imm : Nat) :
    (¬ p.get rs1 = p.get rs2 → p.beq rs1 rs2 imm = p) ∧
    (p.get rs1 = p.get rs2 →
      p.beq rs1 rs2 imm = p.set pc (unsigned_signed_add (p.get pc) (toI32 imm))) ∧
    (¬ p.get rs1 ≠ p.get rs2 → p.bne rs1 rs2 imm = p) ∧
    (p.get rs1 ≠ p.get rs2 →
      p.bne rs1 rs2 imm = p.set pc (unsigned_signed_add (p.get pc) (toI32 imm))) ∧
    (¬ toI32 (p.get rs1) < toI32 (p.get rs2) → p.blt rs1 rs2 imm = p) ∧
    (toI32 (p.get rs1) < toI32 (p.get rs2) →
      p.blt rs1 rs2 imm = p.set pc (unsigned_signed_add (p.get pc) (toI32 imm))) ∧
    (¬ p.get rs1 < p.get rs2 → p.bltu rs1 rs2 imm = p) ∧
    (p.get rs1 < p.get rs2 →
      p.bltu rs1 rs2 imm = p.set pc (unsigned_signed_add (p.get pc) (toI32 imm))) ∧
    (¬ toI32 (p.get rs2) ≤ toI32 (p.get rs1) → p.bge rs1 rs2 imm = p) ∧
    (toI32 (p.get rs2) ≤ toI32 (p.get rs1) →
      p.bge rs1 rs2 imm = p.set pc (unsigned_signed_add (p.get pc) (toI32 imm))) ∧
    (¬ p.get rs2 ≤ p.get rs1 → p.bgeu rs1 rs2 imm = p) ∧
    (p.get rs2 ≤ p.get rs1 →
      p.bgeu rs1 rs2 imm = p.set pc (unsigned_signed_add (p.get pc) (toI32 imm))) ∧
    (∀ t : Nat, (p.set pc t).get pc = t) ∧
    (∀ (t : Nat) (r : Register), r ≠ pc → (p.set pc t).get r = p.get r) := by
  refine ⟨fun hc => ?_, fun hc => ?_, fun hc => ?_, fun hc => ?_, fun hc => ?_, fun hc => ?_,
    fun hc => ?_, fun hc => ?_, fun hc => ?_, fun hc => ?_, fun hc => ?_, fun hc => ?_,
    fun t => Processor.get_set_self p pc t pc_ne_zero,
    fun t r hr => Processor.get_set_other p pc r t hr⟩
  · unfold Processor.beq; rw [if_neg hc]
  · unfold Processor.beq; rw [if_pos hc]
  · unfold Processor.bne; rw [if_neg hc]
  · unfold Processor.bne; rw [if_pos hc]
  · unfold Processor.blt; rw [if_neg hc]
  · unfold Processor.blt; rw [if_pos hc]
  · unfold Processor.bltu; rw [if_neg hc]
  · unfold Processor.bltu; rw [if_pos hc]
  · unfold Processor.bge; rw [if_neg hc]
  · unfold Processor.bge; rw [if_pos hc]
  · unfold Processor.bgeu; rw [if_neg hc]
  · unfold Processor.bgeu; rw [if_pos hc]

/-- Witness for C7 at concrete inputs: a non-taken `blt` (0 < 0 fails)
leaves the fresh processor unchanged, and a taken `beq` (0 = 0) sets only
the PC. -/
theorem C7_branch_non_taken_frame_witness :
    Processor.new.blt 1 2 8 = Processor.new ∧
    Processor.new.beq 1 2 8
      = Processor.new.set pc (unsigned_signed_add (Processor.new.get pc) (toI32 8)) :=
  ⟨(C7_branch_non_taken_frame Processor.new 1 2 8).2.2.2.2.1 (by decide),
   (C7_branch_non_taken_frame Processor.new 1 2 8).2.1 rfl⟩

/-! ## C9: immediate shifts are unmasked, register shifts are masked -/

/-- C9: `slli`, `srli` and `srai` apply no mod-32 masking to the shift
amount: they complete (computing the shift of `rs1` by `imm`) exactly when
`imm ≤ 31` and fault for `imm ≥ 32`, while the register-register shifts
`sll`, `srl`, `sra` mask the amount with `rs2 & 0b11111` (that is, reduce
it mod 32) and are total for every `rs2` value. -/
theorem C9_immediate_shifts_unmasked (p : Processor) (rd rs1 : Register) (imm : Nat) :
    (imm ≤ 31 → p.slli rd rs1 imm = some (p.set rd ((p.get rs1 <<< imm) % U32MOD))) ∧
    (32 ≤ imm → p.slli rd rs1 imm = none) ∧
    (imm ≤ 31 → p.srli rd rs1 imm = some (p.set rd (p.get rs1 >>> imm))) ∧
    (32 ≤ imm → p.srli rd rs1 imm = none) ∧
    (imm ≤ 31 → p.srai rd rs1 imm = some (p.set rd (toU32 (ashr (toI32 (p.get rs1)) imm)))) ∧
    (32 ≤ imm → p.srai rd rs1 imm = none) ∧
    (∀ rs2 : Register, p.sll rd rs1 rs2
      = p.set rd ((p.get rs1 <<< (p.get rs2 % 32)) % U32MOD)) ∧
    (∀ rs2 : Register, p.srl rd rs1 rs2 = p.set rd (p.get rs1 >>> (p.get rs2 % 32))) ∧
    (∀ rs2 : Register, p.sra rd rs1 rs2
      = p.set rd (toU32 (ashr (toI32 (p.get rs1)) (p.get rs2 % 32)))) := by
  have hmask : ∀ n : Nat, n &&& 31 = n % 32 := fun n => by
    simpa using Nat.and_pow_two_sub_one_eq_mod n 5
  refine ⟨fun h => ?_, fun h => ?_, fun h => ?_, fun h => ?_, fun h => ?_, fun h => ?_,
    fun rs2 => ?_, fun rs2 => ?_, fun rs2 => ?_⟩
  · unfold Processor.slli; rw [if_pos (by omega : imm < 32)]
  · unfold Processor.slli; rw [if_neg (by omega : ¬ imm < 32)]
  · unfold Processor.srli; rw [if_pos (by omega : imm < 32)]
  · unfold Processor.srli; rw [if_neg (by omega : ¬ imm < 32)]
  · unfold Processor.srai; rw [if_pos (by omega : imm < 32)]
  · unfold Processor.srai; rw [if_neg (by omega : ¬ imm < 32)]
  · unfold Processor.sll; rw [hmask]
  · unfold Processor.srl; rw [hmask]
  · unfold Processor.sra; rw [hmask]

/-- Witness for C9 at concrete inputs: `slli` by 32 faults, `slli` by 5
completes, and `sll` is total at an arbitrary register pair. -/
theorem C9_immediate_shifts_unmasked_witness :
    Processor.new.slli 1 2 32 = none ∧
    Processor.new.slli 1 2 5 = some (Processor.new.set 1 ((Processor.new.get 2 <<< 5) % U32MOD)) ∧
    Processor.new.sll 1 2 3
      = Processor.new.set 1 ((Processor.new.get 2 <<< (Processor.new.get 3 % 32)) % U32MOD) :=
  ⟨(C9_immediate_shifts_unmasked Processor.new 1 2 32).2.1 (by decide),
   (C9_immediate_shifts_unmasked Processor.new 1 2 5).1 (by decide),
   (C9_immediate_shifts_unmasked Processor.new 1 2 0).2.2.2.2.2.2.1 3⟩

/-! ## C2 and C3: the multi-byte composition the source actually computes -/

/-- C2 (divergence witness): after `set_word 100 0xdeadbeef`, the memory
holds bytes `0xef, 0x77, 0xbb, 0xdd` at 100..103 — only the lowest byte
matches the little-endian decomposition, because `set_word` stores
`(value >> i) & 0xFF` (a shift by `i`, not `8*i`) — and `get_word 100`
returns `0x6e8` (the byte at 103 shifted left 3 bits), not `0xdeadbeef`. -/
theorem C2_word_round_trip_fails :
    (Memory.new.set_word 100 0xdeadbeef).bind (fun m => m.get_byte 100) = some (some 0xef) ∧
    (Memory.new.set_word 100 0xdeadbeef).bind (fun m => m.get_byte 101) = some (some 0x77) ∧
    (Memory.new.set_word 100 0xdeadbeef).bind (fun m => m.get_byte 102) = some (some 0xbb) ∧
    (Memory.new.set_word 100 0xdeadbeef).bind (fun m => m.get_byte 103) = some (some 0xdd) ∧
    (Memory.new.set_word 100 0xdeadbeef).bind (fun m => m.get_word 100) = some (some 0x6e8) :=
  ⟨rfl, rfl, rfl, rfl, rfl⟩

/-- C3 (divergence witness): with bytes `1, 0, 0, 0` at 0..3 the claimed
composition `Σ byte[i] << (8*i)` is 1, but `get_word 0` returns 0: the
loop overwrites `val` with `byte << i` each iteration, so all but the
last byte are lost.  The miss half of the contract does hold on this
input: on the fresh memory `get_word 0` is the `None` miss. -/
theorem C3_get_word_composition_fails :
    (Memory.new.set_byte 0 1).bind (fun m => m.get_byte 0) = some (some 1) ∧
    (Memory.new.set_byte 0 1).bind (fun m => m.get_byte 1) = some (some 0) ∧
    (Memory.new.set_byte 0 1).bind (fun m => m.get_word 0) = some (some 0) ∧
    (Memory.new.set_byte 0 1).bind (fun m => m.get_half 0) = some (some 0) ∧
    Memory.new.get_word 0 = some none :=
  ⟨rfl, rfl, rfl, rfl, rfl⟩

/-! ## C4: the unchecked additions that fault -/

/-- C4 (divergence witness): `jal` and `jalr` compute `PC + 4` with a
plain `u32` addition, which overflows (faults) at `PC = 0xFFFFFFFC`
instead of wrapping to 0; `range_for` computes `base + SLAB_SIZE` with a
plain addition, which overflows for every address in the highest slab, so
`set_byte` there faults as well.  At a PC just below the boundary `jal`
still completes. -/
theorem C4_totality_fails_at_boundaries :
    (Processor.new.set pc 0xFFFFFFFC).jal 1 0 = none ∧
    (Processor.new.set pc 0xFFFFFFFC).jalr 1 2 0 = none ∧
    range_for 0xFFFFFC00 = none ∧
    Memory.new.set_byte 0xFFFFFC00 1 = none ∧
    (Processor.new.set pc 0xFFFFFFF8).jal 1 0
      = some (((Processor.new.set pc 0xFFFFFFF8).set 1 0xFFFFFFFC).set pc 0xFFFFFFF8) :=
  ⟨rfl, rfl, rfl, rfl, rfl⟩

/-! ## C8: zero-fill reads, and the faulting top slab -/

/-- C8 (divergence witness): on the fresh memory a read of the untouched
address 0 returns the `None` miss value, but a read of the top-slab
address `0xFFFFFC00` faults (overflow computing the slab upper bound)
rather than returning the miss value, and a write there faults too. -/
theorem C8_zero_fill_fails_on_top_slab :
    Memory.new.get_byte 0 = some none ∧
    Memory.new.get_byte 0xFFFFFC00 = none ∧
    Memory.new.get_byte 0xFFFFFFFF = none ∧
    Memory.new.set_byte 0xFFFFFFFF 3 = none :=
  ⟨rfl, rfl, rfl, rfl⟩

/-! ## Equation lemmas for non-faulting memory addresses -/

theorem range_for_eq (index : Nat) (h : index < 4294966272) :
    range_for index
      = some ((index - index % slabsize, index - index % slabsize + slabsize),
          index % slabsize) := by
  have hlt : index - index % slabsize + slabsize < U32MOD := by
    unfold slabsize U32MOD
    omega
  simp only [range_for, checked_add_u32]
  rw [if_pos hlt]

theorem Memory.get_byte_eq (m : Memory) (index : Nat) (h : index < 4294966272) :
    m.get_byte index
      = some ((m.slabs (index - index % slabsize, index - index % slabsize + slabsize)).map
          fun vec => vec ⟨index % slabsize, Nat.mod_lt index (by decide)⟩) := by
  unfold Memory.get_byte
  rw [range_for_eq index h]
  exact dif_pos (Nat.mod_lt index (by decide))

theorem Memory.set_byte_eq (m : Memory) (index v : Nat) (h : index < 4294966272) :
    m.set_byte index v
      = some ⟨Function.update m.slabs
          (index - index % slabsize, index - index % slabsize + slabsize)
          (some (Function.update
            ((m.slabs (index - index % slabsize,
              index - index % slabsize + slabsize)).getD zero_slab)
            ⟨index % slabsize, Nat.mod_lt index (by decide)⟩ v))⟩ := by
  unfold Memory.set_byte
  rw [range_for_eq index h]
  exact dif_pos (Nat.mod_lt index (by decide))

/-! ## C10: byte-level round trip and frame -/

/-- C10: for every address `index` whose slab bounds do not overflow
(`index < 0xFFFFFC00`) and every byte value `v`, after `set_byte index v`
the call `get_byte index` returns `Some v`, and every other such address
`b` reads exactly what it read before, except that allocating a fresh
zero-filled slab turns the `None` miss into `Some 0` — it never changes a
previously written byte. -/
theorem C10_byte_round_trip_frame (m : Memory) (index b v : Nat)
    (hi : index < 4294966272) (hb : b < 4294966272) (hv : v < 256) (hne : b ≠ index) :
    ∀ m' ∈ m.set_byte index v,
      m'.get_byte index = some (some v) ∧
      (m'.get_byte b = m.get_byte b ∨
        (m.get_byte b = some none ∧ m'.get_byte b = some (some 0))) := by
  intro m' hm'
  rw [Option.mem_def, Memory.set_byte_eq m index v hi, Option.some.injEq] at hm'
  have hslabs : m'.slabs = Function.update m.slabs
      (index - index % slabsize, index - index % slabsize + slabsize)
      (some (Function.update
        ((m.slabs (index - index % slabsize,
          index - index % slabsize + slabsize)).getD zero_slab)
        ⟨index % slabsize, Nat.mod_lt index (by decide)⟩ v)) := by
    rw [← hm']
  constructor
  · rw [Memory.get_byte_eq m' index hi, hslabs, Function.update_same]
    simp [Function.update_same]
  · by_cases hkey : b - b % slabsize = index - index % slabsize
    · have hd : b % slabsize ≠ index % slabsize := by
        have e : slabsize = 1024 := rfl
        rw [e] at hkey ⊢
        omega
      have hfin : (⟨b % slabsize, Nat.mod_lt b (by decide)⟩ : Fin slabsize)
          ≠ ⟨index % slabsize, Nat.mod_lt index (by decide)⟩ := by
        simpa [Fin.ext_iff] using hd
      rw [Memory.get_byte_eq m' b hb, Memory.get_byte_eq m b hb, hslabs, hkey,
        Function.update_same]
      cases hs : m.slabs (index - index % slabsize,
          index - index % slabsize + slabsize) with
      | some w =>
        left
        simp only [Option.getD_some, Option.map_some']
        rw [Function.update_noteq hfin]
      | none =>
        right
        refine ⟨rfl, ?_⟩
        simp only [Option.getD_none, Option.map_some']
        rw [Function.update_noteq hfin]
        rfl
    · have hkeyne : ((b - b % slabsize, b - b % slabsize + slabsize) : Nat × Nat)
          ≠ (index - index % slabsize, index - index % slabsize + slabsize) :=
        fun hE => hkey (congrArg Prod.fst hE)
      left
      rw [Memory.get_byte_eq m' b hb, Memory.get_byte_eq m b hb, hslabs,
        Function.update_noteq hkeyne]

/-- Witness for C10 at concrete inputs: writing byte 7 at address 100 of
the fresh memory makes address 100 read `Some 7`, and address 101 goes
from the `None` miss to `Some 0` via zero-fill of the freshly allocated
slab. -/
theorem C10_byte_round_trip_frame_witness :
    ((Memory.new.set_byte 100 7).getD Memory.new).get_byte 100 = some (some 7) ∧
    (((Memory.new.set_byte 100 7).getD Memory.new).get_byte 101 = Memory.new.get_byte 101 ∨
      (Memory.new.get_byte 101 = some none ∧
        ((Memory.new.set_byte 100 7).getD Memory.new).get_byte 101 = some (some 0))) :=
  C10_byte_round_trip_frame Memory.new 100 101 7 (by decide) (by decide) (by decide)
    (by decide) ((Memory.new.set_byte 100 7).getD Memory.new) rfl
